import Mathlib

/-!
# Sentinel: a shallow embedding of the PDF stamping/verification core

This file embeds the core of the `sentinel` repository
(`src/core/hasher.py`, `src/core/signer.py`, `src/core/stamper.py`,
`src/core/verifier.py`, `src/core/watcher.py`) into Lean 4 and proves or
refutes the frozen claims about it.

Modelling conventions:
* A page's extracted text (`page.get_text("text")`) is modelled as its list
  of lines; Python's `text.split('\n')` / `'\n'.join(...)` round-trip makes
  the two representations interchangeable, and the byte stream fed to the
  hash accumulator is rebuilt with `String.intercalate "\n"`.
* `hashlib.sha256(...).hexdigest()` is an external collaborator (spec section 6
  treats the hash as a black-box primitive).  Only equality of digests matters
  to the claims, and collision-resistance is idealised as injectivity, so the
  digest is modelled as the accumulated byte stream itself.
* Python exceptions are modelled with `Except Unit`; a function that the
  source wraps in `try/except` becomes a total Lean function, and a function
  that can propagate an exception returns `Except Unit _`.
* JSON values decoded from the PDF `keywords` metadata field are modelled by
  `JValue`; `json.loads` itself is the Python standard library (external), so
  a keywords field is modelled as either unparseable or an already-decoded
  `JValue`.
-/

/-- Python whitespace test used by `str.strip()`. -/
def pyIsWS (c : Char) : Bool :=
  c == ' ' || c == '\t' || c == '\n' || c == '\r' || c == Char.ofNat 11 || c == Char.ofNat 12

/-- Python `str.strip()`: drop leading and trailing whitespace. -/
def pyStrip (s : String) : String :=
  ⟨(((s.data.dropWhile pyIsWS).reverse).dropWhile pyIsWS).reverse⟩

/-- Python `str.startswith(pre)`. -/
def pyStartsWith (s pre : String) : Bool :=
  List.isPrefixOf pre.data s.data

/-- Python `sub in s` substring test (for nonempty `sub`). -/
def pyHasSub (s sub : String) : Bool :=
  go s.data
where
  go : List Char → Bool
    | [] => List.isPrefixOf sub.data []
    | c :: rest => List.isPrefixOf sub.data (c :: rest) || go rest

/-- Python `s[:n]` on characters. -/
def pyTake (s : String) (n : Nat) : String := ⟨s.data.take n⟩

/-- Python `s[-n:]` : the last `n` characters (the whole string if shorter). -/
def pyTakeLast (s : String) (n : Nat) : String :=
  ⟨s.data.drop (s.data.length - n)⟩

/-- Python `str.lower()` (ASCII is all that the code compares). -/
def pyLower (s : String) : String := ⟨s.data.map Char.toLower⟩

/-- `pathlib.PurePath.name`: the final path component, i.e. the characters
after the last `'/'` (paths with a trailing separator are not needed by any
claim). -/
def pathName (p : String) : String :=
  ⟨(p.data.reverse.takeWhile (fun c => !(c == '/'))).reverse⟩

/-- `pathlib` stem/suffix split of a file name: the suffix starts at the last
dot, provided that dot is neither the leading character nor the last one. -/
def stemSuffix (name : String) : String × String :=
  let cs := name.data
  match cs.reverse.findIdx? (fun c => c == '.') with
  | none => (name, "")
  | some j =>
    let i := cs.length - 1 - j
    if 0 < i && i + 1 < cs.length then (⟨cs.take i⟩, ⟨cs.drop i⟩)
    else (name, "")

/-- `pathlib.PurePath.suffix`. -/
def pathSuffix (p : String) : String := (stemSuffix (pathName p)).2

/-- `pathlib.PurePath.stem`. -/
def pathStem (p : String) : String := (stemSuffix (pathName p)).1

/-- Model of the SHA-256 hex digest of a byte stream (spec section 6: the hash
function is an external black-box primitive).  The claims only ever compare
digests for equality, and the spec idealises the digest as collision-free, so
the digest is modelled as the accumulated stream itself — an injective
encoding, exactly what collision-resistance is meant to buy. -/
def sha256hexdigest (stream : String) : String := stream

/-- JSON values as decoded by `json.loads` (Python standard library). -/
inductive JValue where
  | null
  | bool (b : Bool)
  | num (n : Int)
  | str (s : String)
  | arr (elems : List JValue)
  | obj (fields : List (String × JValue))

/-- Python truthiness of a decoded JSON value. -/
def jTruthy : JValue → Bool
  | .null => false
  | .bool b => b
  | .num n => n != 0
  | .str s => !s.data.isEmpty
  | .arr l => !l.isEmpty
  | .obj l => !l.isEmpty

/-- Python `v == s` for a decoded JSON value against a `str`. -/
def jEqString : JValue → String → Bool
  | .str t, s => t == s
  | _, _ => false

/-- `dict.get` lookup over the association list of an object. -/
def jLookup : List (String × JValue) → String → Option JValue
  | [], _ => none
  | (k, v) :: rest, key => if k == key then some v else jLookup rest key

/-- Python `key in data` for a decoded JSON value: key test for a dict,
membership for a list, substring test for a str, `TypeError` otherwise. -/
def jContains (v : JValue) (key : String) : Except Unit Bool :=
  match v with
  | .obj fields => .ok (fields.any (fun kv => kv.1 == key))
  | .arr elems => .ok (elems.any (fun e => jEqString e key))
  | .str s => .ok (pyHasSub s key)
  | _ => .error ()

/-- Python truthiness of `dict.get`'s result (`None` is falsy). -/
def optTruthy : Option JValue → Bool
  | none => false
  | some v => jTruthy v

/-- Python `==` between `dict.get`'s result and a `str`. -/
def optEqString : Option JValue → String → Bool
  | none, _ => false
  | some v, s => jEqString v s

/-- One PDF page as the document library exposes it to the core: the lines of
its extracted plain text and the `str(img)` descriptors of its images. -/
structure Page where
  lines : List String
  images : List String

/-- The decoded state of the `keywords` metadata entry. -/
inductive KeywordsVal where
  | malformed
  | parsed (v : JValue)

/-- A PDF document as the core reads it: its pages and its `keywords`
metadata entry (absent, unparseable JSON, or a decoded JSON value). -/
structure Document where
  pages : List Page
  keywords : Option KeywordsVal

/-- The content of the file system at one path, as seen by `fitz.open`:
missing file, a file that fails to open as a document, or a document. -/
inductive FsFile where
  | missing
  | unopenable
  | document (d : Document)

/-! ## stamper.py : content hashing -/

/-- The byte stream one page contributes to the content hash:
`hasher.update(text.encode("utf-8"))` followed by
`hasher.update(str(img).encode("utf-8"))` for each image. -/
def pageStream (p : Page) : String :=
  String.intercalate "\n" p.lines ++ String.join p.images

/-- `_calculate_content_hash`'s accumulated stream over all pages. -/
def contentStreamPre : List Page → String
  | [] => ""
  | p :: rest => pageStream p ++ contentStreamPre rest

/-- `_calculate_content_hash` (stamper.py): hash of text plus image
descriptors across all pages, before any seal is inserted. -/
def calculateContentHash (pages : List Page) : String :=
  "sha256:" ++ sha256hexdigest (contentStreamPre pages)

/-- The verifier's seal-text filter (get_current_content_hash): a line is
dropped when its stripped form starts with one of the three marker prefixes. -/
def isSealLine (line : String) : Bool :=
  pyStartsWith (pyStrip line) "SENTINEL VERIFIED" ||
  pyStartsWith (pyStrip line) "Hash: ..." ||
  pyStartsWith (pyStrip line) "Date: 20"

/-- Drop the seal lines from a page-0 line list. -/
def stripSeal (lines : List String) : List String :=
  lines.filter (fun l => !isSealLine l)

/-- `get_current_content_hash`'s accumulated stream: page 0 is filtered
through the seal-text filter, every other page is hashed unchanged. -/
def contentStreamPost : List Page → String
  | [] => ""
  | p :: rest =>
    (String.intercalate "\n" (stripSeal p.lines) ++ String.join p.images) ++
      contentStreamPre rest

/-- `get_current_content_hash` (stamper.py): recompute the content hash of a
file, excluding the seal's own lines on page 0; `None` when the file cannot
be opened (the body is wrapped in `try/except`). -/
def getCurrentContentHash (f : FsFile) : Option String :=
  match f with
  | .document d => some ("sha256:" ++ sha256hexdigest (contentStreamPost d.pages))
  | _ => none

/-- `get_sentinel_metadata` (stamper.py): decode the `keywords` metadata
entry and return it when `"sentinel_hash" in data`; every failure (unopenable
file, missing entry, JSON decode error, `TypeError` from `in`) yields `None`
via the surrounding `try/except`. -/
def getSentinelMetadata (f : FsFile) : Option JValue :=
  match f with
  | .document d =>
    match d.keywords with
    | none => none
    | some .malformed => none
    | some (.parsed v) =>
      match jContains v "sentinel_hash" with
      | .ok true => some v
      | .ok false => none
      | .error _ => none
  | _ => none

/-! ## signer.py -/

/-- Python exceptions relevant to `verify_signature`: the
`cryptography.exceptions.InvalidSignature` raised by a failed PSS check, and
every other exception (PEM parse failure, base64 `TypeError`/`binascii`
error, ...). -/
inductive PyErr where
  | invalidSignature
  | other

/-- `verify_signature` (signer.py), parameterised by the external
crypto-primitive collaborators (spec section 6): `loadPem` models
`serialization.load_pem_public_key`, `b64decode` models `base64.b64decode`,
and `rsaVerify` models `public_key.verify(signature, message, PSS, SHA256)`,
which returns on success and raises on any failure.  The whole body is one
`try` block: an `InvalidSignature` outcome returns `False`, any other
exception also returns `False`, and only a completed `verify` returns
`True`. -/
def verifySignature {K : Type} (loadPem : String → Except PyErr K)
    (b64decode : String → Except PyErr String)
    (rsaVerify : K → String → String → Except PyErr Unit)
    (content_hash signature_b64 public_key_pem : String) : Bool :=
  match Except.bind (loadPem public_key_pem) (fun key =>
        Except.bind (b64decode signature_b64) (fun signature =>
        rsaVerify key signature content_hash)) with
  | .ok _ => true
  | .error .invalidSignature => false
  | .error .other => false

/-- The on-disk state of the key directory: the contents (if any) of
`private_key.pem` and `public_key.pem`. -/
structure KeyFS where
  privateKey : Option String
  publicKey : Option String

/-- `get_or_create_keys` (signer.py): when both key files exist, read them
back; otherwise generate a fresh pair (`fresh` models the external
`generate_key_pair`) and write both files.  Returns the new directory state
and the returned pair. -/
def getOrCreateKeys (fs : KeyFS) (fresh : String × String) :
    KeyFS × (String × String) :=
  match fs.privateKey, fs.publicKey with
  | some priv, some pub => (fs, (priv, pub))
  | _, _ => (⟨some fresh.1, some fresh.2⟩, fresh)

/-! ## verifier.py -/

/-- `VerificationStatus` (verifier.py). -/
inductive VerificationStatus where
  | verified
  | tampered
  | notStamped
  | error
deriving DecidableEq

/-- `VerificationResult` (verifier.py).  The dataclass declares `Optional[str]`
fields but Python does not enforce the annotation: the code stores whatever
JSON value the metadata held, so the optional fields carry `JValue`. -/
structure VerificationResult where
  status : VerificationStatus
  message : String
  original_hash : Option JValue := none
  current_hash : Option JValue := none
  timestamp : Option JValue := none
  version : Option JValue := none
  signature_valid : Option Bool := none
  key_fingerprint : Option JValue := none

/-- The local installation as `verify_pdf` sees it: the outcome of
`get_public_key_pem()` / `get_key_fingerprint(...)` (which touch the file
system and can raise), and the outcome of `verify_signature` against the
local public key for given stored-hash and signature strings (total by the
structure of `verify_signature`). -/
structure LocalEnv where
  localFingerprint : Except Unit String
  checkSig : String → String → Bool

/-- The `verify_signature(stored_content_hash, signature, public_key)` call
inside `verify_pdf`: both arguments come from decoded JSON; a non-`str`
argument makes `encode`/`b64decode` raise inside `verify_signature`'s own
`try`, which returns `False`. -/
def verifySigVals (env : LocalEnv) (shOpt sigOpt : Option JValue) : Bool :=
  match shOpt, sigOpt with
  | some (.str h), some (.str s) => env.checkSig h s
  | _, _ => false

/-- Lines 108–123 of verifier.py: compute `signature_valid`.  Inside one
`try`: fetch the local key and fingerprint, verify only when the local
fingerprint equals the record's `sentinel_key_fingerprint`, otherwise leave
`None`; any exception also leaves `None`. -/
def computeSigValid (env : LocalEnv) (shOpt sigOpt kfpOpt : Option JValue) :
    Option Bool :=
  if optTruthy sigOpt && optTruthy kfpOpt then
    match env.localFingerprint with
    | .error _ => none
    | .ok fp =>
      if optEqString kfpOpt fp then some (verifySigVals env shOpt sigOpt)
      else none
  else none

/-- The `sig_msg` suffix of the verified message. -/
def sigMsg : Option Bool → String
  | some true => " | Signature verified"
  | some false => " | Signature INVALID"
  | none => ""

/-- `verify_pdf` (verifier.py).  `path` is the argument string, `f` the file
system content at that path, `env` the local installation.  The function body
has no `try/except`, so the `metadata.get(...)` calls on a non-dict value
returned by `get_sentinel_metadata` raise an `AttributeError` that propagates
to the caller — modelled by `.error ()`. -/
def verifyPdf (path : String) (f : FsFile) (env : LocalEnv) :
    Except Unit VerificationResult :=
  match f with
  | .missing => .ok { status := .error, message := "File not found: " ++ path }
  | _ =>
    if !(pyLower (pathSuffix path) == ".pdf") then
      .ok { status := .error, message := "File is not a PDF" }
    else
      match getSentinelMetadata f with
      | none =>
        .ok { status := .notStamped,
              message := "This PDF has not been stamped by Sentinel" }
      | some md =>
        match md with
        | .obj fields =>
          let ohOpt := jLookup fields "sentinel_hash"
          let shOpt := jLookup fields "sentinel_content_hash"
          let tsOpt := jLookup fields "sentinel_timestamp"
          let verOpt := jLookup fields "sentinel_version"
          let sigOpt := jLookup fields "sentinel_signature"
          let kfpOpt := jLookup fields "sentinel_key_fingerprint"
          if !optTruthy ohOpt then
            .ok { status := .error,
                  message := "Sentinel metadata is corrupted (missing hash)" }
          else if !optTruthy shOpt then
            .ok { status := .verified,
                  message := "Document verified (legacy stamp - no content hash)",
                  original_hash := ohOpt, current_hash := ohOpt,
                  timestamp := tsOpt, version := verOpt }
          else
            match getCurrentContentHash f with
            | none =>
              .ok { status := .error,
                    message := "Failed to calculate content hash" }
            | some cur =>
              let sigValid := computeSigValid env shOpt sigOpt kfpOpt
              if optEqString shOpt cur then
                .ok { status := .verified,
                      message := "Document integrity verified - No tampering detected"
                        ++ sigMsg sigValid,
                      original_hash := ohOpt, current_hash := some (.str cur),
                      timestamp := tsOpt, version := verOpt,
                      signature_valid := sigValid, key_fingerprint := kfpOpt }
              else
                .ok { status := .tampered,
                      message := "TAMPERED - Document content has been modified!",
                      original_hash := ohOpt, current_hash := some (.str cur),
                      timestamp := tsOpt, version := verOpt,
                      signature_valid := some false, key_fingerprint := kfpOpt }
        | _ => .error ()

/-! ## stamper.py : stamping -/

/-- The seal options of `stamp_pdf` with their source defaults. -/
structure SealOptions where
  addVisualSeal : Bool := true
  sealPosition : String := "top-right"
  sealColor : String := "#88A9C3"
  sealText : String := "SENTINEL VERIFIED"

/-- The installation as `stamp_pdf` sees it: `get_key_fingerprint
(get_public_key_pem())` and the `sign_hash` signing primitive. -/
structure StampEnv where
  localFingerprint : String
  sign : String → String

/-- The record `stamp_pdf` returns. -/
structure StampRecord where
  hash : String
  contentHash : String
  timestamp : String
  inputPath : String
  outputPath : String
  version : String

/-- The default output path: `input_path.parent / f"{input_path.stem}_stamped.pdf"`. -/
def defaultOutputPath (p : String) : String :=
  let n := pathName p
  let dir : String := ⟨p.data.take (p.data.length - n.data.length)⟩
  dir ++ pathStem p ++ "_stamped.pdf"

/-- The three text lines `_add_visual_seal` inserts on page 0, in insertion
order: the header (`seal_text[:25]`), the hash snippet
(`f"Hash: ...{file_hash[-12:]}"`), and the date line
(`f"Date: {timestamp[:10]}"`).  The seal's rectangle, position and accent
color are vector drawing only and contribute no extracted text and no image
descriptor. -/
def sealLines (file_hash ts seal_text : String) : List String :=
  [pyTake seal_text 25,
   "Hash: ..." ++ pyTakeLast file_hash 12,
   "Date: " ++ pyTake ts 10]

/-- `_add_visual_seal` applied to a document: the three seal lines appear at
the end of page 0's extracted text. -/
def addSealToPages (pages : List Page) (ls : List String) : List Page :=
  match pages with
  | [] => []
  | p :: rest => { p with lines := p.lines ++ ls } :: rest

/-- The outcome of `doc.save(str(output_path))`, an external document-library
call that writes directly to the final output path (stamper.py has no
temporary file and no atomic replace): it can succeed, fail after having
written part of the file, or fail before writing anything. -/
inductive SaveOutcome where
  | success
  | failTruncated
  | failClean

/-- `stamp_pdf` (stamper.py).  `rawBytes = none` models `calculate_sha256`
raising `IOError` (line 79, before the document is opened); `inputDoc = none`
models `fitz.open` raising (line 83); both happen before any write to the
output path.  `saveOut` is the outcome of `doc.save` (line 114), `prevOut`
the file previously at the output path.  Returns the result (the stamp record
and the saved document, or a propagated exception) together with the new file
at the output path. -/
def stampPdf (inputPath : String) (outputPathOpt : Option String)
    (opts : SealOptions) (env : StampEnv)
    (rawBytes : Option String) (inputDoc : Option Document)
    (ts : String) (saveOut : SaveOutcome) (prevOut : Option FsFile) :
    Except Unit (StampRecord × Document) × Option FsFile :=
  let outputPath := match outputPathOpt with
    | some o => o
    | none => defaultOutputPath inputPath
  match rawBytes with
  | none => (.error (), prevOut)
  | some raw =>
    match inputDoc with
    | none => (.error (), prevOut)
    | some d =>
      let file_hash := "sha256:" ++ sha256hexdigest raw
      let content_hash := calculateContentHash d.pages
      let signature := env.sign content_hash
      let sentinel : List (String × JValue) :=
        [("sentinel_hash", .str file_hash),
         ("sentinel_content_hash", .str content_hash),
         ("sentinel_timestamp", .str ts),
         ("sentinel_version", .str "1.3.2"),
         ("sentinel_signature", .str signature),
         ("sentinel_key_fingerprint", .str env.localFingerprint)]
      let newPages :=
        if opts.addVisualSeal && decide (0 < d.pages.length) then
          addSealToPages d.pages (sealLines file_hash ts opts.sealText)
        else d.pages
      let stamped : Document :=
        { pages := newPages, keywords := some (.parsed (.obj sentinel)) }
      let record : StampRecord :=
        { hash := file_hash, contentHash := content_hash, timestamp := ts,
          inputPath := inputPath, outputPath := outputPath,
          version := "1.3.2" }
      match saveOut with
      | .success => (.ok (record, stamped), some (.document stamped))
      | .failTruncated => (.error (), some .unopenable)
      | .failClean => (.error (), prevOut)

/-! ## watcher.py -/

/-- A file-creation event as `watchdog` delivers it. -/
structure WEvent where
  isDir : Bool
  srcPath : String

/-- The observable actions of `PDFWatchHandler.on_created`: adding a path to
the session's processed set, and invoking the registered callback. -/
inductive WAction where
  | mark (p : String)
  | invoke (p : String)
deriving DecidableEq

/-- The guard sequence of `on_created` (watcher.py lines 35–49): skip
directories, non-`.pdf` suffixes, already-processed paths, and files whose
stem contains `"_stamped"`. -/
def wQualifies (processed : List String) (ev : WEvent) : Bool :=
  !ev.isDir &&
  pyLower (pathSuffix ev.srcPath) == ".pdf" &&
  !processed.contains ev.srcPath &&
  !pyHasSub (pathStem ev.srcPath) "_stamped"

/-- `on_created` as a trace of actions: a qualifying event marks the path as
processed and then invokes the callback, in that order (lines 56–57); every
other event does nothing.  The `time.sleep(0.5)` grace period has no
observable effect on the trace. -/
def onCreated (processed : List String) (ev : WEvent) : List WAction :=
  if wQualifies processed ev then [.mark ev.srcPath, .invoke ev.srcPath]
  else []

/-- Fold a trace's `mark` actions into the processed set. -/
def applyActs (processed : List String) (acts : List WAction) : List String :=
  acts.foldl (fun st a => match a with | .mark p => p :: st | .invoke _ => st)
    processed

/-- One watcher session: deliver the events in order, threading the
processed-path set. -/
def runEvents (processed : List String) : List WEvent → List WAction
  | [] => []
  | ev :: rest =>
    let acts := onCreated processed ev
    acts ++ runEvents (applyActs processed acts) rest

/-- The number of callback invocations for path `p` in a trace. -/
def countInvoke (p : String) (acts : List WAction) : Nat :=
  (acts.filter (fun a => a == WAction.invoke p)).length

/-! ## Helper lemmas -/

theorem isPrefixOf_append_self (l y : List Char) :
    List.isPrefixOf l (l ++ y) = true := by
  induction l with
  | nil => simp [List.isPrefixOf]
  | cons a as ih => simp [List.isPrefixOf, ih]

theorem dropWhileWS_append_cons (a b : List Char) (d : Char)
    (hd : pyIsWS d = false) :
    List.dropWhile pyIsWS (a ++ d :: b) =
      List.dropWhile pyIsWS a ++ d :: b := by
  induction a with
  | nil => simp [List.dropWhile_cons, hd]
  | cons h t ih =>
    by_cases hh : pyIsWS h = true
    · simp [List.dropWhile_cons, hh, ih]
    · simp at hh
      simp [List.dropWhile_cons, hh]

/-- Stripping whitespace from a string that starts with a prefix whose first
and last characters are not whitespace leaves that prefix in place. -/
theorem pyStrip_startsWith_self (pre x : String)
    (c : Char) (cs : List Char) (hpre : pre.data = c :: cs)
    (hc : pyIsWS c = false)
    (d : Char) (ds : List Char) (hrev : pre.data.reverse = d :: ds)
    (hd : pyIsWS d = false) :
    pyStartsWith (pyStrip (pre ++ x)) pre = true := by
  have hdata : (pre ++ x).data = pre.data ++ x.data := by
    simp
  have h1 : List.dropWhile pyIsWS ((pre ++ x).data) = pre.data ++ x.data := by
    rw [hdata, hpre]
    simp [List.dropWhile_cons, hc]
  have h2 : (pre.data ++ x.data).reverse = x.data.reverse ++ (d :: ds) := by
    rw [List.reverse_append, hrev]
  have h3 : List.dropWhile pyIsWS (x.data.reverse ++ (d :: ds)) =
      List.dropWhile pyIsWS x.data.reverse ++ d :: ds :=
    dropWhileWS_append_cons _ _ _ hd
  have h4 : (List.dropWhile pyIsWS x.data.reverse ++ d :: ds).reverse =
      pre.data ++ (List.dropWhile pyIsWS x.data.reverse).reverse := by
    rw [List.reverse_append]
    have : (d :: ds).reverse = pre.data := by
      rw [← hrev, List.reverse_reverse]
    rw [this]
  show List.isPrefixOf pre.data (pyStrip (pre ++ x)).data = true
  unfold pyStrip
  rw [h1, h2, h3, h4]
  exact isPrefixOf_append_self _ _

theorem isSealLine_hashLine (x : String) :
    isSealLine ("Hash: ..." ++ x) = true := by
  have h := pyStrip_startsWith_self "Hash: ..." x
    'H' ['a', 's', 'h', ':', ' ', '.', '.', '.'] (by decide) (by decide)
    '.' ['.', '.', ' ', ':', 'h', 's', 'a', 'H'] (by decide) (by decide)
  simp [isSealLine, h]

theorem isSealLine_dateLine (x : String) :
    isSealLine ("Date: 20" ++ x) = true := by
  have h := pyStrip_startsWith_self "Date: 20" x
    'D' ['a', 't', 'e', ':', ' ', '2', '0'] (by decide) (by decide)
    '0' ['2', ' ', ':', 'e', 't', 'a', 'D'] (by decide) (by decide)
  simp [isSealLine, h]

/-- A date line built from a timestamp whose first ten characters start with
`"20"` is recognised by the seal filter. -/
theorem isSealLine_dateLine_of_ts (ts : String)
    (hts : pyStartsWith (pyTake ts 10) "20" = true) :
    isSealLine ("Date: " ++ pyTake ts 10) = true := by
  have hpre : List.IsPrefix ("20" : String).data (pyTake ts 10).data := by
    have := hts
    unfold pyStartsWith at this
    exact (List.isPrefixOf_iff_prefix).mp this
  obtain ⟨r, hr⟩ := hpre
  have key : "Date: " ++ pyTake ts 10 = "Date: 20" ++ String.mk r := by
    apply String.ext
    simp only [String.data_append]
    rw [← hr, ← List.append_assoc]
    rfl
  rw [key]
  exact isSealLine_dateLine _

theorem jLookup_any (fields : List (String × JValue)) (k : String) (v : JValue)
    (h : jLookup fields k = some v) :
    fields.any (fun kv => kv.1 == k) = true := by
  induction fields with
  | nil => simp [jLookup] at h
  | cons kv rest ih =>
    obtain ⟨k1, v1⟩ := kv
    by_cases hk : (k1 == k) = true
    · simp [List.any_cons, hk]
    · have hk' : (k1 == k) = false := by simpa using hk
      simp only [jLookup, hk', Bool.false_eq_true, if_false] at h
      simp [List.any_cons, hk', ih h]

/-- The round-trip core: stripping the seal lines from a freshly sealed
document recovers exactly the pre-seal byte stream, provided none of the
original page-0 lines is itself recognised as seal text and every inserted
line is. -/
theorem contentStreamPost_addSeal (pages : List Page) (ls : List String)
    (hclean : ∀ l ∈ (pages.headD ⟨[], []⟩).lines, isSealLine l = false)
    (hseal : ∀ l ∈ ls, isSealLine l = true) :
    contentStreamPost (addSealToPages pages ls) = contentStreamPre pages := by
  cases pages with
  | nil => rfl
  | cons p rest =>
    have hstrip : stripSeal (p.lines ++ ls) = p.lines := by
      unfold stripSeal
      rw [List.filter_append]
      have e1 : p.lines.filter (fun l => !isSealLine l) = p.lines :=
        List.filter_eq_self.mpr (by
          intro a ha
          simp [hclean a ha])
      have e2 : ls.filter (fun l => !isSealLine l) = [] :=
        List.filter_eq_nil_iff.mpr (by
          intro a ha
          simp [hseal a ha])
      rw [e1, e2, List.append_nil]
    simp only [addSealToPages, contentStreamPost, contentStreamPre, pageStream,
      hstrip]

/-- Without a seal, a document whose page-0 lines are all unrecognised hashes
to the same stream before and after the (identity) strip. -/
theorem contentStreamPost_clean (pages : List Page)
    (hclean : ∀ l ∈ (pages.headD ⟨[], []⟩).lines, isSealLine l = false) :
    contentStreamPost pages = contentStreamPre pages := by
  cases pages with
  | nil => rfl
  | cons p rest =>
    have hstrip : stripSeal p.lines = p.lines :=
      List.filter_eq_self.mpr (by
        intro a ha
        simp [hclean a ha])
    simp only [contentStreamPost, contentStreamPre, pageStream, hstrip]

theorem wContains_cons (q : String) (st : List String) (p : String) :
    (q :: st).contains p = (p == q || st.contains p) := by
  cases h : p == q <;> simp [List.contains, List.elem, h]

theorem countInvoke_append (p : String) (a b : List WAction) :
    countInvoke p (a ++ b) = countInvoke p a + countInvoke p b := by
  simp [countInvoke, List.filter_append]

theorem applyActs_pair (st : List String) (q : String) :
    applyActs st [WAction.mark q, WAction.invoke q] = q :: st := rfl

theorem applyActs_nil (st : List String) : applyActs st [] = st := rfl

theorem countInvoke_pair_ne (p q : String) (h : q ≠ p) :
    countInvoke p [WAction.mark q, WAction.invoke q] = 0 := by
  simp [countInvoke, h]

/-- Once a path is in the processed set it is never invoked again for the
rest of the session. -/
theorem countInvoke_of_contains (p : String) (evs : List WEvent) :
    ∀ st : List String, st.contains p = true →
    countInvoke p (runEvents st evs) = 0 := by
  induction evs with
  | nil => intro st _; rfl
  | cons ev rest ih =>
    intro st h
    by_cases hq : wQualifies st ev = true
    · have hq' := hq
      simp only [wQualifies, Bool.and_eq_true, Bool.not_eq_true'] at hq'
      obtain ⟨⟨⟨_, _⟩, hc⟩, _⟩ := hq'
      have hne : ev.srcPath ≠ p := by
        intro he
        rw [he, h] at hc
        cases hc
      simp only [runEvents, onCreated, hq, if_true, countInvoke_append,
        applyActs_pair, countInvoke_pair_ne p ev.srcPath hne]
      have hc' : (ev.srcPath :: st).contains p = true := by
        rw [wContains_cons, h, Bool.or_true]
      rw [ih _ hc']
    · simp only [runEvents, onCreated, hq, if_false, List.nil_append,
        applyActs_nil]
      exact ih _ h

/-- Dedup core: starting from a state that has not processed `p`, a session
containing at least one qualifying creation event for `p` invokes the
callback for `p` exactly once. -/
theorem watcher_count_one (p : String)
    (hpdf : pyLower (pathSuffix p) = ".pdf")
    (hstem : pyHasSub (pathStem p) "_stamped" = false) :
    ∀ (evs : List WEvent) (st : List String), st.contains p = false →
    (∃ ev ∈ evs, ev.srcPath = p ∧ ev.isDir = false) →
    countInvoke p (runEvents st evs) = 1 := by
  intro evs
  induction evs with
  | nil =>
    intro st _ hex
    simp at hex
  | cons ev rest ih =>
    intro st hst hex
    by_cases hsp : ev.srcPath = p
    · by_cases hdir : ev.isDir = true
      · have hq : wQualifies st ev = false := by
          simp [wQualifies, hdir]
        have hex' : ∃ e ∈ rest, e.srcPath = p ∧ e.isDir = false := by
          rcases hex with ⟨e, he, hep, hed⟩
          rcases List.mem_cons.mp he with rfl | hmem
          · rw [hdir] at hed
            cases hed
          · exact ⟨e, hmem, hep, hed⟩
        simp only [runEvents, onCreated, hq, if_false, List.nil_append,
          applyActs_nil]
        exact ih st hst hex'
      · have hdir' : ev.isDir = false := by simpa using hdir
        have hq : wQualifies st ev = true := by
          simp [wQualifies, hdir', hsp, hpdf, hstem]
          simpa using hst
        have htail :
            countInvoke p (runEvents (p :: st) rest) = 0 := by
          apply countInvoke_of_contains
          rw [wContains_cons]
          simp
        simp only [runEvents, onCreated, hq, if_true, countInvoke_append,
          applyActs_pair, hsp, htail]
        simp [countInvoke]
    · have hex' : ∃ e ∈ rest, e.srcPath = p ∧ e.isDir = false := by
        rcases hex with ⟨e, he, hep, hed⟩
        rcases List.mem_cons.mp he with rfl | hmem
        · exact absurd hep hsp
        · exact ⟨e, hmem, hep, hed⟩
      by_cases hq : wQualifies st ev = true
      · have hc' : (ev.srcPath :: st).contains p = false := by
          rw [wContains_cons, hst]
          have : (p == ev.srcPath) = false := by
            simp [Ne.symm hsp]
          rw [this]
          rfl
        simp only [runEvents, onCreated, hq, if_true, countInvoke_append,
          applyActs_pair, countInvoke_pair_ne p ev.srcPath hsp]
        rw [ih _ hc' hex']
      · simp only [runEvents, onCreated, hq, if_false, List.nil_append,
          applyActs_nil]
        exact ih st hst hex'

/-- In every session trace, a `mark p` precedes every `invoke p`: the
processed set is updated before the callback runs. -/
theorem mark_before_invoke (p : String) :
    ∀ (evs : List WEvent) (st : List String) (pre post : List WAction),
    runEvents st evs = pre ++ WAction.invoke p :: post →
    WAction.mark p ∈ pre := by
  intro evs
  induction evs with
  | nil =>
    intro st pre post h
    exfalso
    have : ([] : List WAction) ≠ pre ++ WAction.invoke p :: post := by
      simp
    exact this h
  | cons ev rest ih =>
    intro st pre post h
    by_cases hq : wQualifies st ev = true
    · simp only [runEvents, onCreated, hq, if_true, applyActs_pair] at h
      cases pre with
      | nil =>
        rw [List.nil_append] at h
        cases h
      | cons a pre1 =>
        cases pre1 with
        | nil =>
          simp only [List.cons_append, List.nil_append, List.cons.injEq,
            WAction.invoke.injEq] at h
          obtain ⟨ha, hsp2, -⟩ := h
          rw [← ha, hsp2]
          simp
        | cons b pre2 =>
          simp only [List.cons_append, List.cons.injEq] at h
          obtain ⟨ha, hb, hrest⟩ := h
          have : WAction.mark p ∈ pre2 := ih _ pre2 post hrest
          simp [this]
    · simp only [runEvents, onCreated, hq, if_false, List.nil_append,
        applyActs_nil] at h
      exact ih st pre post h

/-- A metadata object whose `sentinel_hash` lookup succeeds passes the
`"sentinel_hash" in data` test. -/
theorem sentinelMetadata_of_lookup (pages : List Page)
    (fields : List (String × JValue))
    (hohT : optTruthy (jLookup fields "sentinel_hash") = true) :
    getSentinelMetadata
      (.document ⟨pages, some (.parsed (.obj fields))⟩) =
      some (.obj fields) := by
  cases h : jLookup fields "sentinel_hash" with
  | none => rw [h] at hohT; cases hohT
  | some v =>
    have hany := jLookup_any fields "sentinel_hash" v h
    simp [getSentinelMetadata, jContains, hany]

/-- Evaluation of `verify_pdf` on a stamped record that carries a truthy
`sentinel_hash` and a truthy `sentinel_content_hash`: the outcome is the
hash comparison, with `signature_valid` from the signature step on the
`Verified` side and a hard `False` on the `Tampered` side. -/
theorem verifyPdf_eval_content (path : String) (pages : List Page)
    (fields : List (String × JValue)) (env : LocalEnv)
    (hsfx : pyLower (pathSuffix path) = ".pdf")
    (hohT : optTruthy (jLookup fields "sentinel_hash") = true)
    (hshT : optTruthy (jLookup fields "sentinel_content_hash") = true) :
    verifyPdf path (.document ⟨pages, some (.parsed (.obj fields))⟩) env =
      (if optEqString (jLookup fields "sentinel_content_hash")
          ("sha256:" ++ sha256hexdigest (contentStreamPost pages)) then
        .ok { status := .verified,
              message := "Document integrity verified - No tampering detected"
                ++ sigMsg (computeSigValid env
                    (jLookup fields "sentinel_content_hash")
                    (jLookup fields "sentinel_signature")
                    (jLookup fields "sentinel_key_fingerprint")),
              original_hash := jLookup fields "sentinel_hash",
              current_hash :=
                some (.str ("sha256:" ++ sha256hexdigest (contentStreamPost pages))),
              timestamp := jLookup fields "sentinel_timestamp",
              version := jLookup fields "sentinel_version",
              signature_valid := computeSigValid env
                (jLookup fields "sentinel_content_hash")
                (jLookup fields "sentinel_signature")
                (jLookup fields "sentinel_key_fingerprint"),
              key_fingerprint := jLookup fields "sentinel_key_fingerprint" }
      else
        .ok { status := .tampered,
              message := "TAMPERED - Document content has been modified!",
              original_hash := jLookup fields "sentinel_hash",
              current_hash :=
                some (.str ("sha256:" ++ sha256hexdigest (contentStreamPost pages))),
              timestamp := jLookup fields "sentinel_timestamp",
              version := jLookup fields "sentinel_version",
              signature_valid := some false,
              key_fingerprint := jLookup fields "sentinel_key_fingerprint" }) := by
  have hmeta := sentinelMetadata_of_lookup pages fields hohT
  simp only [verifyPdf, hsfx, beq_self_eq_true, Bool.not_true,
    Bool.false_eq_true, if_false, hmeta, hohT, hshT, getCurrentContentHash]

/-- Evaluation of `verify_pdf` on a legacy record: truthy `sentinel_hash`
but falsy (or absent) `sentinel_content_hash`. -/
theorem verifyPdf_eval_legacy (path : String) (pages : List Page)
    (fields : List (String × JValue)) (env : LocalEnv)
    (hsfx : pyLower (pathSuffix path) = ".pdf")
    (hohT : optTruthy (jLookup fields "sentinel_hash") = true)
    (hshF : optTruthy (jLookup fields "sentinel_content_hash") = false) :
    verifyPdf path (.document ⟨pages, some (.parsed (.obj fields))⟩) env =
      .ok { status := .verified,
            message := "Document verified (legacy stamp - no content hash)",
            original_hash := jLookup fields "sentinel_hash",
            current_hash := jLookup fields "sentinel_hash",
            timestamp := jLookup fields "sentinel_timestamp",
            version := jLookup fields "sentinel_version" } := by
  have hmeta := sentinelMetadata_of_lookup pages fields hohT
  simp only [verifyPdf, hsfx, beq_self_eq_true, Bool.not_true,
    Bool.false_eq_true, if_false, hmeta, hohT, hshF, Bool.not_false, if_true]

/-! ## Claim theorems -/

/-- C3 (code bug, failing input): `verify_pdf` is not total.  A PDF whose
`keywords` metadata holds the JSON text `["sentinel_hash"]` passes
`get_sentinel_metadata`'s `"sentinel_hash" in data` membership test, so the
non-dict list is returned; `verify_pdf` then calls `.get` on it and the
`AttributeError` propagates to the caller instead of becoming a
`VerificationResult` with status `Error`. -/
theorem verifyPdf_raises_on_nondict_metadata :
    verifyPdf "t.pdf"
      (.document ⟨[], some (.parsed (.arr [.str "sentinel_hash"]))⟩)
      ⟨.ok "", fun _ _ => false⟩ = .error () := rfl

/-- C4 (counterexample): with only `private_key.pem` present,
`get_or_create_keys` regenerates and overwrites it, so the content of a key
file that existed before the call is not preserved. -/
theorem getOrCreateKeys_overwrites_lone_key :
    (getOrCreateKeys ⟨some "OLD-PRIVATE", none⟩
        ("NEW-PRIVATE", "NEW-PUBLIC")).1.privateKey ≠ some "OLD-PRIVATE" := by
  decide

/-- C4 (amended): when both key files exist neither is touched and the
stored pair is returned; when either is missing, both files are freshly
written with the generated pair (overwriting a lone existing file). -/
theorem getOrCreateKeys_amended (fs : KeyFS) (fresh : String × String) :
    (∀ p q, fs.privateKey = some p → fs.publicKey = some q →
      getOrCreateKeys fs fresh = (fs, (p, q))) ∧
    ((fs.privateKey = none ∨ fs.publicKey = none) →
      getOrCreateKeys fs fresh = (⟨some fresh.1, some fresh.2⟩, fresh)) := by
  obtain ⟨a, b⟩ := fs
  constructor
  · intro p q hp hq
    simp only at hp hq
    subst hp
    subst hq
    rfl
  · intro h
    rcases h with h | h
    · simp only at h
      subst h
      cases b <;> rfl
    · simp only at h
      subst h
      cases a <;> rfl

theorem getOrCreateKeys_amended_witness :
    getOrCreateKeys ⟨some "PRIV", some "PUB"⟩ ("X", "Y") =
      (⟨some "PRIV", some "PUB"⟩, ("PRIV", "PUB")) :=
  (getOrCreateKeys_amended ⟨some "PRIV", some "PUB"⟩ ("X", "Y")).1
    "PRIV" "PUB" rfl rfl

/-- C5 (code bug, failing input): `stamp_pdf` saves directly to the final
output path with no temporary file and no atomic replace, so a failure
during `doc.save` leaves a new, partially written file at the output path
while the call raises. -/
theorem stampPdf_truncated_output_on_save_failure :
    stampPdf "report.pdf" none
        ⟨true, "top-right", "#88A9C3", "SENTINEL VERIFIED"⟩
        ⟨"FP", fun _ => "SIG"⟩ (some "RAWBYTES")
        (some ⟨[⟨["Hello"], []⟩], none⟩) "2025-01-01T00:00:00+00:00"
        .failTruncated none =
      (.error (), some .unopenable) ∧
    (some FsFile.unopenable ≠ (none : Option FsFile)) :=
  ⟨rfl, Option.some_ne_none _⟩

/-- C6 (confirmed): whenever the recomputed content hash differs from the
stored `sentinel_content_hash`, `verify_pdf` reports `Tampered` with
`signature_valid = false`, for every installation environment — in
particular regardless of the signature-verification outcome. -/
theorem tampered_forces_signature_false (path : String) (pages : List Page)
    (fields : List (String × JValue)) (env : LocalEnv)
    (hsfx : pyLower (pathSuffix path) = ".pdf")
    (hohT : optTruthy (jLookup fields "sentinel_hash") = true)
    (hshT : optTruthy (jLookup fields "sentinel_content_hash") = true)
    (hmm : optEqString (jLookup fields "sentinel_content_hash")
        ("sha256:" ++ sha256hexdigest (contentStreamPost pages)) = false) :
    ∃ r, verifyPdf path (.document ⟨pages, some (.parsed (.obj fields))⟩) env =
        .ok r ∧ r.status = .tampered ∧ r.signature_valid = some false := by
  rw [verifyPdf_eval_content path pages fields env hsfx hohT hshT, hmm]
  simp only [Bool.false_eq_true, if_false]
  exact ⟨_, rfl, rfl, rfl⟩

theorem tampered_forces_signature_false_witness :
    ∃ r, verifyPdf "t.pdf"
        (.document ⟨[⟨["Hello"], []⟩, ⟨["World"], ["img0"]⟩], some (.parsed (.obj
          [("sentinel_hash", .str "sha256:FILE"),
           ("sentinel_content_hash", .str "sha256:STORED"),
           ("sentinel_signature", .str "SIG"),
           ("sentinel_key_fingerprint", .str "LOCAL")]))⟩)
        ⟨.ok "LOCAL", fun _ _ => true⟩ =
      .ok r ∧ r.status = .tampered ∧ r.signature_valid = some false :=
  tampered_forces_signature_false "t.pdf"
    [⟨["Hello"], []⟩, ⟨["World"], ["img0"]⟩]
    [("sentinel_hash", .str "sha256:FILE"),
     ("sentinel_content_hash", .str "sha256:STORED"),
     ("sentinel_signature", .str "SIG"),
     ("sentinel_key_fingerprint", .str "LOCAL")]
    ⟨.ok "LOCAL", fun _ _ => true⟩ rfl rfl rfl rfl

/-- C7 (confirmed): a record with a truthy `sentinel_hash` and no
`sentinel_content_hash` field is reported `Verified` with the legacy-stamp
message, and the result is the same for every page list — the document's
pages are never re-hashed on this path. -/
theorem legacy_record_verified_without_rehash (path : String)
    (fields : List (String × JValue)) (env : LocalEnv)
    (hsfx : pyLower (pathSuffix path) = ".pdf")
    (hohT : optTruthy (jLookup fields "sentinel_hash") = true)
    (hno : jLookup fields "sentinel_content_hash" = none) :
    ∀ pages : List Page,
      verifyPdf path (.document ⟨pages, some (.parsed (.obj fields))⟩) env =
        .ok { status := .verified,
              message := "Document verified (legacy stamp - no content hash)",
              original_hash := jLookup fields "sentinel_hash",
              current_hash := jLookup fields "sentinel_hash",
              timestamp := jLookup fields "sentinel_timestamp",
              version := jLookup fields "sentinel_version" } := by
  intro pages
  exact verifyPdf_eval_legacy path pages fields env hsfx hohT
    (by rw [hno]; rfl)

theorem legacy_record_verified_without_rehash_witness :
    verifyPdf "old.pdf"
      (.document ⟨[⟨["Body"], []⟩], some (.parsed (.obj
        [("sentinel_hash", .str "sha256:abc"),
         ("sentinel_timestamp", .str "2023-05-05T00:00:00")]))⟩)
      ⟨.ok "LOCAL", fun _ _ => false⟩ =
      .ok { status := .verified,
            message := "Document verified (legacy stamp - no content hash)",
            original_hash := some (.str "sha256:abc"),
            current_hash := some (.str "sha256:abc"),
            timestamp := some (.str "2023-05-05T00:00:00"),
            version := none } :=
  legacy_record_verified_without_rehash "old.pdf"
    [("sentinel_hash", .str "sha256:abc"),
     ("sentinel_timestamp", .str "2023-05-05T00:00:00")]
    ⟨.ok "LOCAL", fun _ _ => false⟩ rfl rfl rfl [⟨["Body"], []⟩]

/-- C2 (counterexample): a record whose `keyFingerprint` differs from the
local fingerprint does NOT always yield `signature_valid = unknown`: when
the recomputed content hash mismatches the stored one, the `Tampered`
result carries `signature_valid = false`. -/
theorem cross_machine_signature_false_on_tamper :
    (Except.map (fun r => (r.status, r.signature_valid))
      (verifyPdf "t.pdf"
        (.document ⟨[⟨["Hello"], []⟩], some (.parsed (.obj
          [("sentinel_hash", .str "sha256:FILE"),
           ("sentinel_content_hash", .str "sha256:STORED"),
           ("sentinel_signature", .str "SIG"),
           ("sentinel_key_fingerprint", .str "REMOTE")]))⟩)
        ⟨.ok "LOCAL", fun _ _ => true⟩)) =
      .ok (.tampered, some false) ∧
    some false ≠ (none : Option Bool) :=
  ⟨rfl, by decide⟩

/-- C2 (amended): with a key fingerprint different from the local one, the
signature step leaves `signature_valid = unknown` and every `Verified`
outcome reports it; a `Tampered` outcome instead forces `false`
(content mismatch supersedes the signature state). -/
theorem cross_machine_signature_unknown_on_match (path : String)
    (pages : List Page) (fields : List (String × JValue)) (env : LocalEnv)
    (fp : String)
    (hsfx : pyLower (pathSuffix path) = ".pdf")
    (hohT : optTruthy (jLookup fields "sentinel_hash") = true)
    (hshT : optTruthy (jLookup fields "sentinel_content_hash") = true)
    (hfp : env.localFingerprint = .ok fp)
    (hneq : optEqString (jLookup fields "sentinel_key_fingerprint") fp = false)
    (hmatch : optEqString (jLookup fields "sentinel_content_hash")
        ("sha256:" ++ sha256hexdigest (contentStreamPost pages)) = true) :
    ∃ r, verifyPdf path (.document ⟨pages, some (.parsed (.obj fields))⟩) env =
        .ok r ∧ r.status = .verified ∧ r.signature_valid = none := by
  rw [verifyPdf_eval_content path pages fields env hsfx hohT hshT, hmatch]
  simp only [if_true]
  refine ⟨_, rfl, rfl, ?_⟩
  simp [computeSigValid, hfp, hneq]

theorem cross_machine_signature_unknown_on_match_witness :
    ∃ r, verifyPdf "t.pdf"
        (.document ⟨[⟨["Hello"], []⟩], some (.parsed (.obj
          [("sentinel_hash", .str "sha256:FILE"),
           ("sentinel_content_hash", .str "sha256:Hello"),
           ("sentinel_signature", .str "SIG"),
           ("sentinel_key_fingerprint", .str "REMOTE")]))⟩)
        ⟨.ok "LOCAL", fun _ _ => true⟩ =
      .ok r ∧ r.status = .verified ∧ r.signature_valid = none :=
  cross_machine_signature_unknown_on_match "t.pdf" [⟨["Hello"], []⟩]
    [("sentinel_hash", .str "sha256:FILE"),
     ("sentinel_content_hash", .str "sha256:Hello"),
     ("sentinel_signature", .str "SIG"),
     ("sentinel_key_fingerprint", .str "REMOTE")]
    ⟨.ok "LOCAL", fun _ _ => true⟩ "LOCAL" rfl rfl rfl rfl rfl rfl

/-- C9 (confirmed): within one watcher session starting from an empty
processed set, any event sequence containing at least one qualifying
creation event for a `.pdf` path `p` (stem without `"_stamped"`) invokes the
callback for `p` exactly once, and in the session trace a `mark p`
(processed-set insertion) precedes every `invoke p`. -/
theorem watcher_dedup_and_mark_first (p : String) (evs : List WEvent)
    (hpdf : pyLower (pathSuffix p) = ".pdf")
    (hstem : pyHasSub (pathStem p) "_stamped" = false)
    (hex : ∃ ev ∈ evs, ev.srcPath = p ∧ ev.isDir = false) :
    countInvoke p (runEvents [] evs) = 1 ∧
    ∀ pre post, runEvents [] evs = pre ++ WAction.invoke p :: post →
      WAction.mark p ∈ pre :=
  ⟨watcher_count_one p hpdf hstem evs [] rfl hex,
   fun pre post h => mark_before_invoke p evs [] pre post h⟩

theorem watcher_dedup_and_mark_first_witness :
    countInvoke "scan.pdf"
      (runEvents [] [⟨false, "scan.pdf"⟩, ⟨false, "scan.pdf"⟩]) = 1 :=
  (watcher_dedup_and_mark_first "scan.pdf"
    [⟨false, "scan.pdf"⟩, ⟨false, "scan.pdf"⟩] rfl rfl
    ⟨⟨false, "scan.pdf"⟩, List.mem_cons_self _ _, rfl, rfl⟩).1

/-- C10 (confirmed): the self-output filter is a substring test on the stem,
so a created `.pdf` whose stem contains `"_stamped"` anywhere is never
passed to the callback in any session. -/
theorem watcher_skips_stamped_stem (p : String)
    (hsub : pyHasSub (pathStem p) "_stamped" = true) :
    ∀ (evs : List WEvent) (st : List String),
      countInvoke p (runEvents st evs) = 0 := by
  intro evs
  induction evs with
  | nil => intro st; rfl
  | cons ev rest ih =>
    intro st
    by_cases hq : wQualifies st ev = true
    · have hne : ev.srcPath ≠ p := by
        intro he
        have hq' := hq
        simp only [wQualifies, Bool.and_eq_true, Bool.not_eq_true'] at hq'
        obtain ⟨⟨⟨_, _⟩, _⟩, hs⟩ := hq'
        rw [he, hsub] at hs
        cases hs
      simp only [runEvents, onCreated, hq, if_true, countInvoke_append,
        applyActs_pair, countInvoke_pair_ne p ev.srcPath hne, ih,
        Nat.add_zero]
    · simp only [runEvents, onCreated, hq, if_false, List.nil_append,
        applyActs_nil]
      exact ih st

theorem watcher_skips_stamped_stem_witness :
    countInvoke "a_stamped_copy.pdf"
      (runEvents [] [⟨false, "a_stamped_copy.pdf"⟩]) = 0 :=
  watcher_skips_stamped_stem "a_stamped_copy.pdf" rfl
    [⟨false, "a_stamped_copy.pdf"⟩] []

/-- C8 (confirmed): `verify_signature` is a total Boolean function of its
three string arguments and the crypto collaborators: it returns `true`
exactly when PEM loading, base64 decoding and the PSS verification against
exactly this digest string and this public key all succeed, and `false` on
every parse failure, malformed signature or cryptographic mismatch — no
exception ever escapes the function. -/
theorem verifySignature_total_and_exact {K : Type}
    (loadPem : String → Except PyErr K)
    (b64decode : String → Except PyErr String)
    (rsaVerify : K → String → String → Except PyErr Unit)
    (content_hash signature_b64 public_key_pem : String) :
    verifySignature loadPem b64decode rsaVerify
        content_hash signature_b64 public_key_pem = true ↔
      ∃ key sig, loadPem public_key_pem = .ok key ∧
        b64decode signature_b64 = .ok sig ∧
        rsaVerify key sig content_hash = .ok () := by
  unfold verifySignature
  cases hk : loadPem public_key_pem with
  | error e => cases e <;> simp [Except.bind, hk]
  | ok key =>
    cases hs : b64decode signature_b64 with
    | error e => cases e <;> simp [Except.bind, hk, hs]
    | ok sig =>
      cases hv : rsaVerify key sig content_hash with
      | error e => cases e <;> simp [Except.bind, hk, hs, hv]
      | ok u =>
        cases u
        simp [Except.bind, hk, hs, hv]

theorem verifySignature_total_and_exact_witness :
    verifySignature (K := Unit) (fun _ => .ok ()) (fun s => .ok s)
      (fun _ _ _ => .ok ()) "sha256:h" "SIG" "PEM" = true :=
  (verifySignature_total_and_exact (fun _ => .ok ()) (fun s => .ok s)
    (fun _ _ _ => .ok ()) "sha256:h" "SIG" "PEM").mpr
    ⟨(), "SIG", rfl, rfl, rfl⟩

/-- C1 (counterexample): the round-trip fails for an arbitrary header text.
With `seal_text = "X"` the stamper writes a header line the verifier's
seal filter does not strip, so verifying the freshly stamped output on the
same installation reports `Tampered`, not `Verified`. -/
theorem stamp_verify_roundtrip_fails_for_custom_header :
    Except.map
      (fun rs : StampRecord × Document =>
        Except.map VerificationResult.status
          (verifyPdf "report_stamped.pdf" (.document rs.2)
            ⟨.ok "LOCAL", fun _ _ => true⟩))
      (stampPdf "report.pdf" (some "report_stamped.pdf")
        ⟨true, "top-right", "#88A9C3", "X"⟩ ⟨"LOCAL", fun _ => "SIG"⟩
        (some "RAW") (some ⟨[⟨["Hello"], []⟩], none⟩)
        "2025-01-01T00:00:00+00:00" .success none).1 =
      .ok (.ok .tampered) ∧
    VerificationStatus.tampered ≠ .verified :=
  ⟨rfl, by decide⟩

/-- C1 (amended): the stamp/verify round-trip yields `Verified` with
`current_hash` equal to the stamp record's content hash, on one
installation, for every input document none of whose page-0 lines is itself
recognised by the seal filter, every seal position, every accent color,
seal enabled or not — provided the header text's 25-character truncation is
recognised by the verifier's seal filter (as the default
`"SENTINEL VERIFIED"` is) and the timestamp starts with `"20"`. -/
theorem stamp_verify_roundtrip_verified
    (inputPath outPath : String) (opts : SealOptions) (senv : StampEnv)
    (venv : LocalEnv) (raw ts : String) (d : Document)
    (prevOut : Option FsFile)
    (hsfx : pyLower (pathSuffix outPath) = ".pdf")
    (hts : pyStartsWith (pyTake ts 10) "20" = true)
    (hseal : isSealLine (pyTake opts.sealText 25) = true)
    (hclean : ∀ l ∈ (d.pages.headD ⟨[], []⟩).lines, isSealLine l = false) :
    ∃ rec stamped r,
      (stampPdf inputPath (some outPath) opts senv (some raw) (some d) ts
        .success prevOut).1 = .ok (rec, stamped) ∧
      verifyPdf outPath (.document stamped) venv = .ok r ∧
      r.status = .verified ∧
      r.current_hash = some (.str rec.contentHash) := by
  have hsl : ∀ l ∈ sealLines ("sha256:" ++ sha256hexdigest raw) ts
      opts.sealText, isSealLine l = true := by
    intro l hl
    simp only [sealLines, List.mem_cons, List.not_mem_nil, or_false] at hl
    rcases hl with rfl | rfl | rfl
    · exact hseal
    · exact isSealLine_hashLine _
    · exact isSealLine_dateLine_of_ts ts hts
  have hpost : contentStreamPost
      (if opts.addVisualSeal && decide (0 < d.pages.length) then
        addSealToPages d.pages
          (sealLines ("sha256:" ++ sha256hexdigest raw) ts opts.sealText)
      else d.pages) = contentStreamPre d.pages := by
    by_cases hc : (opts.addVisualSeal && decide (0 < d.pages.length)) = true
    · rw [if_pos hc]
      exact contentStreamPost_addSeal d.pages _ hclean hsl
    · rw [if_neg hc]
      exact contentStreamPost_clean d.pages hclean
  have hev := verifyPdf_eval_content outPath
    (if opts.addVisualSeal && decide (0 < d.pages.length) then
      addSealToPages d.pages
        (sealLines ("sha256:" ++ sha256hexdigest raw) ts opts.sealText)
    else d.pages)
    [("sentinel_hash", .str ("sha256:" ++ sha256hexdigest raw)),
     ("sentinel_content_hash",
       .str ("sha256:" ++ sha256hexdigest (contentStreamPre d.pages))),
     ("sentinel_timestamp", .str ts),
     ("sentinel_version", .str "1.3.2"),
     ("sentinel_signature",
       .str (senv.sign ("sha256:" ++ sha256hexdigest (contentStreamPre d.pages)))),
     ("sentinel_key_fingerprint", .str senv.localFingerprint)]
    venv hsfx rfl rfl
  have hcond : optEqString
      (jLookup
        [("sentinel_hash", .str ("sha256:" ++ sha256hexdigest raw)),
         ("sentinel_content_hash",
           .str ("sha256:" ++ sha256hexdigest (contentStreamPre d.pages))),
         ("sentinel_timestamp", .str ts),
         ("sentinel_version", .str "1.3.2"),
         ("sentinel_signature",
           .str (senv.sign ("sha256:" ++ sha256hexdigest (contentStreamPre d.pages)))),
         ("sentinel_key_fingerprint", .str senv.localFingerprint)]
        "sentinel_content_hash")
      ("sha256:" ++ sha256hexdigest (contentStreamPost
        (if opts.addVisualSeal && decide (0 < d.pages.length) then
          addSealToPages d.pages
            (sealLines ("sha256:" ++ sha256hexdigest raw) ts opts.sealText)
        else d.pages))) = true := by
    have hl : jLookup
        [("sentinel_hash", .str ("sha256:" ++ sha256hexdigest raw)),
         ("sentinel_content_hash",
           .str ("sha256:" ++ sha256hexdigest (contentStreamPre d.pages))),
         ("sentinel_timestamp", .str ts),
         ("sentinel_version", .str "1.3.2"),
         ("sentinel_signature",
           .str (senv.sign ("sha256:" ++ sha256hexdigest (contentStreamPre d.pages)))),
         ("sentinel_key_fingerprint", .str senv.localFingerprint)]
        "sentinel_content_hash" =
        some (.str ("sha256:" ++ sha256hexdigest (contentStreamPre d.pages))) :=
      rfl
    rw [hl, hpost]
    simp [optEqString, jEqString]
  rw [hcond, if_pos rfl] at hev
  refine ⟨_, _, _, rfl, hev, rfl, ?_⟩
  simp only [hpost]
  rfl

theorem stamp_verify_roundtrip_verified_witness :
    ∃ rec stamped r,
      (stampPdf "report.pdf" (some "report_stamped.pdf")
        ⟨true, "top-right", "#88A9C3", "SENTINEL VERIFIED"⟩
        ⟨"LOCAL", fun _ => "SIG"⟩ (some "RAW")
        (some ⟨[⟨["Hello"], []⟩], none⟩) "2025-01-01T00:00:00+00:00"
        .success none).1 = .ok (rec, stamped) ∧
      verifyPdf "report_stamped.pdf" (.document stamped)
        ⟨.ok "LOCAL", fun _ _ => true⟩ = .ok r ∧
      r.status = .verified ∧
      r.current_hash = some (.str rec.contentHash) :=
  stamp_verify_roundtrip_verified "report.pdf" "report_stamped.pdf"
    ⟨true, "top-right", "#88A9C3", "SENTINEL VERIFIED"⟩
    ⟨"LOCAL", fun _ => "SIG"⟩ ⟨.ok "LOCAL", fun _ _ => true⟩
    "RAW" "2025-01-01T00:00:00+00:00" ⟨[⟨["Hello"], []⟩], none⟩ none
    rfl rfl (by decide) (by decide)
